import Mathlib

/-!
Verification of the memo-app client (src/memo-app/src/App.jsx).

The component keeps a list of memos in memory, mediates CRUD calls to an
external store, and derives a filtered view.  Each handler is embedded as a
pure function from the current list (plus the response of the single external
call it makes) to the new list.  The response of the external store is an
explicit argument of type Except String _, matching the destructured
data / error pair the data-access API returns.
-/

namespace MemoApp

/-- The sole entity: a memo record as held in the in-memory list.
Fields mirror the columns used by App.jsx; the id is server-assigned and
compared with strict equality in the handlers. -/
structure Memo where
  id : Nat
  title : String
  content : String
  created_at : String
  updated_at : Option String
deriving DecidableEq

/-- fetchMemos (App.jsx lines 17-30): on error the list is left untouched;
on success the list is fully replaced by the fetched data, with a null
payload coerced to the empty list. -/
def fetchMemos (memos : List Memo) (resp : Except String (Option (List Memo))) :
    List Memo :=
  match resp with
  | .error _ => memos
  | .ok data => data.getD []

/-- handleCreateMemo (App.jsx lines 33-46): on error the list is left
untouched; on success the server-returned record is prepended. -/
def handleCreateMemo (memos : List Memo) (resp : Except String Memo) :
    List Memo :=
  match resp with
  | .error _ => memos
  | .ok data => data :: memos

/-- handleUpdateMemo (App.jsx lines 49-63): on error the list is left
untouched; on success every element whose id matches is replaced by the
server-returned record. -/
def handleUpdateMemo (memos : List Memo) (id : Nat) (resp : Except String Memo) :
    List Memo :=
  match resp with
  | .error _ => memos
  | .ok data => memos.map (fun m => if m.id = id then data else m)

/-- handleDeleteMemo (App.jsx lines 66-76): if the user declines the
confirmation prompt the handler returns before any request is made; on error
the list is left untouched; on success elements with the given id are removed.
The Bool of the result records whether a delete request was issued. -/
def handleDeleteMemo (memos : List Memo) (id : Nat) (confirmed : Bool)
    (resp : Except String Unit) : List Memo × Bool :=
  if !confirmed then (memos, false)
  else
    match resp with
    | .error _ => (memos, true)
    | .ok _ => (memos.filter (fun m => m.id ≠ id), true)

/-- Embedding of the JavaScript trim() call: surrounding whitespace is
removed from both ends of the string. -/
def jsTrim (s : String) : String :=
  String.mk (((s.data.dropWhile Char.isWhitespace).reverse.dropWhile
    Char.isWhitespace).reverse)

/-- Embedding of the JavaScript toLowerCase() call, character by character. -/
def jsToLower (s : String) : String :=
  String.mk (s.data.map Char.toLower)

/-- Substring test on character lists, embedding the semantics of the
JavaScript String.prototype.includes call used by the search filter. -/
def strIncludes : List Char → List Char → Bool
  | [], sub => sub.isPrefixOf []
  | c :: t, sub => sub.isPrefixOf (c :: t) || strIncludes t sub

/-- s.includes(sub) on strings. -/
def jsIncludes (s sub : String) : Bool :=
  strIncludes s.toList sub.toList

/-- The predicate of the memos.filter call in filteredMemos (App.jsx lines
97-101): the argument lower is the already lowercased search text. -/
def matchesSearch (m : Memo) (lower : String) : Bool :=
  jsIncludes (jsToLower m.title) lower || jsIncludes (jsToLower m.content) lower

/-- filteredMemos (App.jsx lines 94-102): blank search returns the list as is,
otherwise the list is filtered by a case-insensitive substring match over
title and content. -/
def filteredMemos (memos : List Memo) (search : String) : List Memo :=
  if jsTrim search = "" then memos
  else memos.filter (fun m => matchesSearch m (jsToLower search))

/-- Outcome of the modal submit handler: either the validation alert fired,
or onSubmit was invoked with the trimmed title and content. -/
inductive SubmitResult
  | alerted
  | submitted (title content : String)
deriving DecidableEq

/-- MemoModal.handleSubmit (App.jsx lines 209-216): a title that trims to the
empty string triggers an alert and nothing else; otherwise onSubmit receives
the trimmed fields. -/
def MemoModal.handleSubmit (title content : String) : SubmitResult :=
  if jsTrim title = "" then .alerted
  else .submitted (jsTrim title) (jsTrim content)

/-- The slice of App state the submit path touches: the memo list, whether
the modal is open, and which memo (if any) is being edited. -/
structure AppState where
  memos : List Memo
  isModalOpen : Bool
  editingMemo : Option Memo
deriving DecidableEq

/-- closeModal (App.jsx lines 89-91): only isModalOpen is reset; the
editingMemo field is not cleared here. -/
def closeModal (s : AppState) : AppState :=
  { s with isModalOpen := false }

/-- The onSubmit callback wired to MemoModal (App.jsx lines 159-166):
dispatches to update or create depending on editingMemo, then closes the
modal unconditionally, whether or not the external call succeeded. -/
def appOnSubmit (s : AppState) (resp : Except String Memo) : AppState :=
  let memos2 :=
    match s.editingMemo with
    | some em => handleUpdateMemo s.memos em.id resp
    | none => handleCreateMemo s.memos resp
  closeModal { s with memos := memos2 }

/-- The whole submit path: MemoModal.handleSubmit followed (when validation
passes) by the onSubmit callback.  The Bool of the result records whether a
request was issued to the external store. -/
def modalSubmit (s : AppState) (title content : String)
    (resp : Except String Memo) : AppState × Bool :=
  match MemoModal.handleSubmit title content with
  | .alerted => (s, false)
  | .submitted _ _ => (appOnSubmit s resp, true)

/-- The uniqueness invariant of the in-memory list: pairwise distinct ids. -/
def idsNodup (l : List Memo) : Prop :=
  (l.map Memo.id).Nodup

instance (l : List Memo) : Decidable (idsNodup l) := by
  unfold idsNodup; infer_instance

/-- Specification-side notion: t contains s as a case-insensitive substring,
where case-insensitivity is lowering both sides character by character. -/
def containsCI (t s : String) : Prop :=
  ∃ pre post, (jsToLower t).data = pre ++ (jsToLower s).data ++ post

/-- Concrete memo used to instantiate hypotheses of the theorems below. -/
def memoA : Memo :=
  { id := 1, title := "Trip plan", content := "pack bags",
    created_at := "2024-01-02T00:00:00Z", updated_at := none }

/-- Second concrete memo used to instantiate hypotheses. -/
def memoB : Memo :=
  { id := 2, title := "Recipe", content := "flour and eggs",
    created_at := "2024-01-01T00:00:00Z", updated_at := none }

/-- The record the external store would return for an update of memoB. -/
def memoB2 : Memo :=
  { id := 2, title := "Recipe v2", content := "more flour",
    created_at := "2024-01-01T00:00:00Z", updated_at := some "2024-01-03T00:00:00Z" }

/-- A memo with an id absent from the concrete two-element list, as the
external store would mint it on insert. -/
def memoC : Memo :=
  { id := 3, title := "Groceries", content := "milk and eggs",
    created_at := "2024-01-04T00:00:00Z", updated_at := none }

lemma isPrefixOf_eq_true_iff (l₁ l₂ : List Char) :
    l₁.isPrefixOf l₂ = true ↔ ∃ t, l₂ = l₁ ++ t := by
  induction l₁ generalizing l₂ with
  | nil => simp [List.isPrefixOf]
  | cons a as ih =>
    cases l₂ with
    | nil => simp [List.isPrefixOf]
    | cons b bs =>
      simp only [List.isPrefixOf, Bool.and_eq_true, beq_iff_eq, ih,
        List.cons_append, List.cons.injEq]
      constructor
      · rintro ⟨hab, t, ht⟩
        exact ⟨t, hab.symm, ht⟩
      · rintro ⟨t, hab, ht⟩
        exact ⟨hab.symm, t, ht⟩

lemma strIncludes_eq_true_iff (hay sub : List Char) :
    strIncludes hay sub = true ↔ ∃ pre post, hay = pre ++ sub ++ post := by
  induction hay with
  | nil =>
    simp only [strIncludes, isPrefixOf_eq_true_iff]
    constructor
    · rintro ⟨t, ht⟩
      exact ⟨[], t, by simpa using ht⟩
    · rintro ⟨pre, post, h⟩
      refine ⟨post, ?_⟩
      have hpre : pre = [] := by
        cases pre with
        | nil => rfl
        | cons p ps => simp at h
      subst hpre
      simpa using h
  | cons c t ih =>
    simp only [strIncludes, Bool.or_eq_true, isPrefixOf_eq_true_iff, ih]
    constructor
    · rintro (⟨u, hu⟩ | ⟨pre, post, h⟩)
      · exact ⟨[], u, by simpa using hu⟩
      · exact ⟨c :: pre, post, by simp [h]⟩
    · rintro ⟨pre, post, h⟩
      cases pre with
      | nil =>
        exact Or.inl ⟨post, by simpa using h⟩
      | cons p ps =>
        simp only [List.cons_append, List.cons.injEq] at h
        exact Or.inr ⟨ps, post, h.2⟩

lemma matchesSearch_iff (m : Memo) (s : String) :
    matchesSearch m (jsToLower s) = true ↔
      containsCI m.title s ∨ containsCI m.content s := by
  simp only [matchesSearch, jsIncludes, Bool.or_eq_true, strIncludes_eq_true_iff,
    containsCI, String.toList]

lemma length_filter_ne_add_countP (l : List Memo) (id : Nat) :
    (l.filter (fun m => m.id ≠ id)).length +
      l.countP (fun m => m.id = id) = l.length := by
  induction l with
  | nil => rfl
  | cons a t ih =>
    by_cases h : a.id = id <;>
      simp [List.filter_cons, List.countP_cons, h] at ih ⊢ <;> omega

/-- C1: if the search string is empty or all-whitespace, the filter returns
the list itself; otherwise it returns the subsequence (hence: original
relative order, no mutation) of exactly those memos whose title or content
contains the search string as a case-insensitive substring. -/
theorem c1_filter_correct (L : List Memo) (s : String) :
    (jsTrim s = "" → filteredMemos L s = L) ∧
    (jsTrim s ≠ "" →
      (filteredMemos L s).Sublist L ∧
      ∀ m, m ∈ filteredMemos L s ↔
        m ∈ L ∧ (containsCI m.title s ∨ containsCI m.content s)) := by
  constructor
  · intro h
    rw [filteredMemos, if_pos h]
  · intro h
    rw [filteredMemos, if_neg h]
    refine ⟨List.filter_sublist L, fun m => ?_⟩
    rw [List.mem_filter, matchesSearch_iff]

/-- Closed instance of c1_filter_correct: a blank search leaves the concrete
list intact, and the search TRIP keeps memoA. -/
theorem c1_filter_correct_witness :
    filteredMemos [memoA, memoB] "  " = [memoA, memoB] ∧
    memoA ∈ filteredMemos [memoA, memoB] "TRIP" :=
  ⟨(c1_filter_correct [memoA, memoB] "  ").1 (by decide),
   (((c1_filter_correct [memoA, memoB] "TRIP").2 (by decide)).2 memoA).mpr
     ⟨by decide, Or.inl ⟨[], (String.mk [' ', 'p', 'l', 'a', 'n']).data, by decide⟩⟩⟩

/-- C2: when the external call reports an error, none of Load, Create,
Update, Delete changes the in-memory memo list. -/
theorem c2_failure_leaves_list (memos : List Memo) (e : String) (id : Nat)
    (confirmed : Bool) :
    fetchMemos memos (.error e) = memos ∧
    handleCreateMemo memos (.error e) = memos ∧
    handleUpdateMemo memos id (.error e) = memos ∧
    (handleDeleteMemo memos id confirmed (.error e)).1 = memos := by
  refine ⟨rfl, rfl, rfl, ?_⟩
  cases confirmed <;> rfl

/-- C3: a successful Create prepends the server-returned record: the length
grows by one, the new record is first, and the tail is the old list. -/
theorem c3_create_prepends (memos : List Memo) (r : Memo) :
    (handleCreateMemo memos (.ok r)).length = memos.length + 1 ∧
    (handleCreateMemo memos (.ok r)).head? = some r ∧
    (handleCreateMemo memos (.ok r)).tail = memos :=
  ⟨rfl, rfl, rfl⟩

/-- C4: a successful Update keeps the length, puts the server-returned record
at every position whose id matches, and leaves every other position
untouched; the new record is in the list whenever some element had the id. -/
theorem c4_update_replaces (memos : List Memo) (id : Nat) (r : Memo)
    (h : ∃ m ∈ memos, m.id = id) :
    (handleUpdateMemo memos id (.ok r)).length = memos.length ∧
    r ∈ handleUpdateMemo memos id (.ok r) ∧
    ∀ i : Nat, (handleUpdateMemo memos id (.ok r))[i]? =
      memos[i]?.map (fun m => if m.id = id then r else m) := by
  unfold handleUpdateMemo
  refine ⟨List.length_map _ _, ?_, fun i => List.getElem?_map _ _ _⟩
  obtain ⟨m, hm, hid⟩ := h
  exact List.mem_map.mpr ⟨m, hm, by simp [hid]⟩

/-- Closed instance of c4_update_replaces on a two-element list. -/
theorem c4_update_replaces_witness :
    (handleUpdateMemo [memoA, memoB] 2 (.ok memoB2)).length =
      [memoA, memoB].length ∧
    memoB2 ∈ handleUpdateMemo [memoA, memoB] 2 (.ok memoB2) :=
  ⟨(c4_update_replaces [memoA, memoB] 2 memoB2 ⟨memoB, by decide, by decide⟩).1,
   (c4_update_replaces [memoA, memoB] 2 memoB2 ⟨memoB, by decide, by decide⟩).2.1⟩

/-- C5: a confirmed, successful Delete removes every element with the id
(the result is an order-preserving subsequence holding exactly the elements
with a different id), and when exactly one element had the id the length
drops by exactly one. -/
theorem c5_delete_removes (memos : List Memo) (id : Nat)
    (h : memos.countP (fun m => m.id = id) = 1) :
    (∀ m ∈ (handleDeleteMemo memos id true (.ok ())).1, m.id ≠ id) ∧
    ((handleDeleteMemo memos id true (.ok ())).1).Sublist memos ∧
    (∀ m, m ∈ (handleDeleteMemo memos id true (.ok ())).1 ↔
      m ∈ memos ∧ m.id ≠ id) ∧
    ((handleDeleteMemo memos id true (.ok ())).1).length + 1 = memos.length := by
  have hd : (handleDeleteMemo memos id true (.ok ())).1
      = memos.filter (fun m => m.id ≠ id) := rfl
  rw [hd]
  refine ⟨?_, List.filter_sublist _, ?_, ?_⟩
  · intro m hm
    exact of_decide_eq_true (List.mem_filter.mp hm).2
  · intro m
    rw [List.mem_filter]
    simp
  · have h2 := length_filter_ne_add_countP memos id
    omega

/-- Closed instance of c5_delete_removes: deleting id 1 from the concrete
two-element list leaves one element. -/
theorem c5_delete_removes_witness :
    (handleDeleteMemo [memoA, memoB] 1 true (.ok ())).1.length + 1 =
      [memoA, memoB].length :=
  (c5_delete_removes [memoA, memoB] 1 (by decide)).2.2.2

/-- C9: when the user declines the confirmation prompt, Delete issues no
request and returns the list unchanged. -/
theorem c9_decline_no_request (memos : List Memo) (id : Nat)
    (resp : Except String Unit) :
    handleDeleteMemo memos id false resp = (memos, false) := rfl

/-- C10: a successful Update whose id matches no element leaves the list
exactly unchanged, and Update never changes the length for any id. -/
theorem c10_update_missing_id (memos : List Memo) (id : Nat) (r : Memo)
    (h : ∀ m ∈ memos, m.id ≠ id) :
    handleUpdateMemo memos id (.ok r) = memos ∧
    ∀ (id2 : Nat) (resp : Except String Memo),
      (handleUpdateMemo memos id2 resp).length = memos.length := by
  constructor
  · have h2 : ∀ m ∈ memos, (if m.id = id then r else m) = m :=
      fun m hm => if_neg (h m hm)
    show memos.map (fun m => if m.id = id then r else m) = memos
    rw [List.map_congr_left h2, List.map_id']
  · intro id2 resp
    cases resp with
    | error e => rfl
    | ok data => exact List.length_map _ _

/-- Closed instance of c10_update_missing_id: updating an absent id 5 leaves
the concrete list unchanged. -/
theorem c10_update_missing_id_witness :
    handleUpdateMemo [memoA, memoB] 5 (.ok memoB2) = [memoA, memoB] :=
  (c10_update_missing_id [memoA, memoB] 5 memoB2 (by decide)).1

/-- C6: a title that trims to the empty string is rejected synchronously by
the modal submit handler (the alert outcome), so no request is issued to the
external store and the application state, the memo list included, is
unchanged — for create and update sessions alike, since modalSubmit covers
both through editingMemo. -/
theorem c6_blank_title_no_request (s : AppState) (title content : String)
    (resp : Except String Memo) (h : jsTrim title = "") :
    MemoModal.handleSubmit title content = .alerted ∧
    modalSubmit s title content resp = (s, false) := by
  have hs : MemoModal.handleSubmit title content = .alerted := by
    rw [MemoModal.handleSubmit, if_pos h]
  refine ⟨hs, ?_⟩
  rw [modalSubmit, hs]

/-- Closed instance of c6_blank_title_no_request with an all-whitespace
title, on an update session as well as on a create session. -/
theorem c6_blank_title_no_request_witness :
    modalSubmit { memos := [memoA], isModalOpen := true, editingMemo := none }
      "   " "content" (.ok memoC) =
      ({ memos := [memoA], isModalOpen := true, editingMemo := none }, false) ∧
    modalSubmit { memos := [memoA], isModalOpen := true, editingMemo := some memoA }
      "   " "content" (.ok memoB2) =
      ({ memos := [memoA], isModalOpen := true, editingMemo := some memoA }, false) :=
  ⟨(c6_blank_title_no_request _ "   " "content" (.ok memoC) (by decide)).2,
   (c6_blank_title_no_request _ "   " "content" (.ok memoB2) (by decide)).2⟩

/-- C7 as stated is false on the code: here is a concrete validated update
submission whose external call fails, after which the modal is closed
(isModalOpen is false) even though a request was issued — the edit session
does not remain open. -/
theorem c7_modal_not_left_open_cex :
    (modalSubmit { memos := [memoA], isModalOpen := true, editingMemo := some memoA }
        "Trip plan" "pack" (.error "network down")).2 = true ∧
    (modalSubmit { memos := [memoA], isModalOpen := true, editingMemo := some memoA }
        "Trip plan" "pack" (.error "network down")).1.isModalOpen = false := by
  decide

/-- C7 amended: on a validated submission whose external call fails, in-memory
data survives (the memo list and the editing target are unchanged) but the
modal is closed unconditionally, so the edit session does not stay open. -/
theorem c7_failure_closes_modal (s : AppState) (title content e : String)
    (h : jsTrim title ≠ "") :
    (modalSubmit s title content (.error e)).1.memos = s.memos ∧
    (modalSubmit s title content (.error e)).1.editingMemo = s.editingMemo ∧
    (modalSubmit s title content (.error e)).1.isModalOpen = false ∧
    (modalSubmit s title content (.error e)).2 = true := by
  obtain ⟨ms, io, ed⟩ := s
  rw [modalSubmit, MemoModal.handleSubmit, if_neg h]
  cases ed <;>
    simp [appOnSubmit, closeModal, handleUpdateMemo, handleCreateMemo]

/-- Closed instance of c7_failure_closes_modal on a failing create. -/
theorem c7_failure_closes_modal_witness :
    (modalSubmit { memos := [memoA], isModalOpen := true, editingMemo := none }
        "Groceries" "milk" (.error "down")).1.memos = [memoA] ∧
    (modalSubmit { memos := [memoA], isModalOpen := true, editingMemo := none }
        "Groceries" "milk" (.error "down")).1.isModalOpen = false :=
  ⟨(c7_failure_closes_modal _ "Groceries" "milk" "down" (by decide)).1,
   (c7_failure_closes_modal _ "Groceries" "milk" "down" (by decide)).2.2.1⟩

/-- C8: every operation maps a list with pairwise-distinct ids to a list with
pairwise-distinct ids, given that the store returns distinct ids on load,
mints a fresh id on insert, and echoes the targeted id on update; error
responses and delete need no assumption beyond the starting invariant. -/
theorem c8_ops_preserve_distinct_ids (memos data : List Memo) (r : Memo)
    (id : Nat) (confirmed : Bool) (resp : Except String Unit) (e : String)
    (hm : idsNodup memos) :
    (idsNodup data → idsNodup (fetchMemos memos (.ok (some data)))) ∧
    idsNodup (fetchMemos memos (.ok none)) ∧
    idsNodup (fetchMemos memos (.error e)) ∧
    (r.id ∉ memos.map Memo.id → idsNodup (handleCreateMemo memos (.ok r))) ∧
    idsNodup (handleCreateMemo memos (.error e)) ∧
    (r.id = id → idsNodup (handleUpdateMemo memos id (.ok r))) ∧
    idsNodup (handleUpdateMemo memos id (.error e)) ∧
    idsNodup (handleDeleteMemo memos id confirmed resp).1 := by
  refine ⟨fun hd => hd, ?_, hm, fun hf => ?_, hm, fun hr => ?_, hm, ?_⟩
  · simp [fetchMemos, idsNodup]
  · show ((r :: memos).map Memo.id).Nodup
    rw [List.map_cons, List.nodup_cons]
    exact ⟨hf, hm⟩
  · have hmap : (memos.map (fun m => if m.id = id then r else m)).map Memo.id
        = memos.map Memo.id := by
      rw [List.map_map]
      refine List.map_congr_left fun m hmem => ?_
      by_cases hmi : m.id = id
      · simp [Function.comp, hmi, hr]
      · simp [Function.comp, hmi]
    show ((memos.map fun m => if m.id = id then r else m).map Memo.id).Nodup
    rw [hmap]
    exact hm
  · cases confirmed with
    | false => exact hm
    | true =>
      cases resp with
      | error e2 => exact hm
      | ok u =>
        have hs : ((memos.filter (fun m => m.id ≠ id)).map Memo.id).Sublist
            (memos.map Memo.id) := (List.filter_sublist memos).map Memo.id
        exact hm.sublist hs

/-- Closed instance of c8_ops_preserve_distinct_ids: load, a fresh-id create,
an id-echoing update, and a confirmed delete all keep ids distinct on the
concrete two-element list. -/
theorem c8_ops_preserve_distinct_ids_witness :
    idsNodup (fetchMemos [memoA, memoB] (.ok (some [memoB]))) ∧
    idsNodup (handleCreateMemo [memoA, memoB] (.ok memoC)) ∧
    idsNodup (handleUpdateMemo [memoA, memoB] 3 (.ok memoC)) ∧
    idsNodup (handleDeleteMemo [memoA, memoB] 3 true (.ok ())).1 := by
  have h := c8_ops_preserve_distinct_ids [memoA, memoB] [memoB] memoC 3 true
    (.ok ()) "err" (by decide)
  exact ⟨h.1 (by decide), h.2.2.2.1 (by decide), h.2.2.2.2.2.1 (by decide),
    h.2.2.2.2.2.2.2⟩

end MemoApp
